import Mathlib

/-!
Verification of the queue-driven ingestion pipeline of the Google-Sheets
backend, shallowly embedded from
`src/lambda-function/.aws-sam/build/DataProcessorFunction/handler.js`
(the deployed SQS → LLM → MongoDB worker).

JavaScript runtime values that flow through the pipeline (JSON-parsed
message bodies, LLM responses, MongoDB documents) are modelled by `JValue`.
JavaScript numbers are modelled by `ℚ` plus an explicit `nan` constructor
(the pipeline produces `NaN` only through `parseFloat`; infinities and
float rounding play no role on any path the claims touch and are not
modelled).  `userIdObj s` models the BSON ObjectId wrapper object that the
handler constructs around the user id string.
-/

namespace Pipeline

/-- A JavaScript/JSON runtime value.  Objects are insertion-ordered
association lists with unique keys, exactly as JS object literals built by
the handler. -/
inductive JValue where
  | str (s : String)
  | num (q : ℚ)
  | nan
  | jbool (b : Bool)
  | jnull
  | userIdObj (s : String)
  | obj (o : List (String × JValue))

mutual

/-- Structural equality of runtime values (MongoDB's value equality on the
scalar and document shapes the pipeline produces; `NaN` never appears in a
filter built by the handler, so its equality behaviour is irrelevant
here). -/
def JValue.beq : JValue → JValue → Bool
  | .str a, .str b => a == b
  | .num a, .num b => a == b
  | .nan, .nan => true
  | .jbool a, .jbool b => a == b
  | .jnull, .jnull => true
  | .userIdObj a, .userIdObj b => a == b
  | .obj a, .obj b => beqEntries a b
  | _, _ => false

/-- Pointwise equality of two entry lists. -/
def beqEntries : List (String × JValue) → List (String × JValue) → Bool
  | [], [] => true
  | (k1, v1) :: r1, (k2, v2) :: r2 =>
      k1 == k2 && JValue.beq v1 v2 && beqEntries r1 r2
  | _, _ => false

end

/-- A JavaScript object: ordered key/value pairs. -/
abbrev JObj := List (String × JValue)

/-- Property read `o[k]`: the value at the first occurrence of key `k`. -/
def getKey : JObj → String → Option JValue
  | [], _ => none
  | (k1, v) :: rest, k => if k1 = k then some v else getKey rest k

/-- The JS `in` operator: does the object have key `k`? -/
def hasKey (o : JObj) (k : String) : Bool :=
  (getKey o k).isSome

/-- Property write `o[k] = v`: replace the value in place if the key
exists, otherwise append the key at the end (JS insertion order). -/
def setKey : JObj → String → JValue → JObj
  | [], k, v => [(k, v)]
  | (k1, v1) :: rest, k, v =>
      if k1 = k then (k, v) :: rest else (k1, v1) :: setKey rest k v

/-- The JS `delete o[k]` operator. -/
def delKey : JObj → String → JObj
  | [], _ => []
  | (k1, v1) :: rest, k =>
      if k1 = k then delKey rest k else (k1, v1) :: delKey rest k

/-- Keys of an object, in order. -/
def keysOf (o : JObj) : List String := o.map Prod.fst

/-! ## JavaScript `parseFloat` and the field-repair normalization

`getAiPredictionsWithRetry` (handler.js, lines 476–493) repairs the parsed
LLM response: it renames an aliased `Burnout` key to `Burnout_Risk`, and
coerces string-valued numeric fields with
`parseFloat(s.replace(/[$,]/g, ''))` (for `Forecasted_Cost`),
`parseFloat(s.replace(/[$,±]/g, ''))` (for `Forecasted_Deviation`) and
`parseFloat(s.replace(/%/g, ''))` (for `Burnout_Risk`). -/

/-- `s.replace(/[c...]/g, '')`: delete every occurrence of the listed
characters. -/
def stripChars (cs : List Char) (s : String) : String :=
  ⟨s.toList.filter (fun c => !(cs.contains c))⟩

/-- Numeric value of a digit string (most significant first). -/
def digitsVal (l : List Char) : ℕ :=
  l.foldl (fun a c => 10 * a + (c.toNat - '0'.toNat)) 0

/-- JavaScript `parseFloat`: skip leading whitespace, then read the longest
prefix of the form `[+-]? digits* ('.' digits*)? ([eE] [+-]? digits+)?`
with at least one digit in the mantissa, ignoring any trailing characters;
`NaN` when no such prefix exists.  (The `Infinity` literal, which no LLM
numeric field ever takes on the repaired paths, is not modelled.) -/
def parseFloatJS (s : String) : JValue :=
  let l0 := s.toList.dropWhile (fun c => c = ' ' || c = '\t' || c = '\n' || c = '\r')
  let sgn : ℚ := if l0.head? = some '-' then -1 else 1
  let l1 := if l0.head? = some '-' || l0.head? = some '+' then l0.tail else l0
  let ip := l1.takeWhile Char.isDigit
  let l2 := l1.drop ip.length
  let fp := if l2.head? = some '.' then l2.tail.takeWhile Char.isDigit else []
  let l3 := if l2.head? = some '.' then l2.tail.drop fp.length else l2
  if ip.isEmpty && fp.isEmpty then .nan
  else
    let mant : ℚ := (digitsVal ip : ℚ) + (digitsVal fp : ℚ) / (10 : ℚ) ^ fp.length
    let ex : ℤ :=
      if l3.head? = some 'e' || l3.head? = some 'E' then
        let r := l3.tail
        let esgn : ℤ := if r.head? = some '-' then -1 else 1
        let r2 := if r.head? = some '-' || r.head? = some '+' then r.tail else r
        let ed := r2.takeWhile Char.isDigit
        if ed.isEmpty then 0 else esgn * (digitsVal ed : ℤ)
      else 0
    .num (sgn * mant * (10 : ℚ) ^ ex)

/-- Lines 478–481: if the response used the alias key `Burnout` and has no
`Burnout_Risk` key, move the value to `Burnout_Risk` (appended, as JS
property creation) and delete `Burnout`. -/
def fixBurnoutAlias (o : JObj) : JObj :=
  match getKey o "Burnout", hasKey o "Burnout_Risk" with
  | some v, false => delKey (setKey o "Burnout_Risk" v) "Burnout"
  | _, _ => o

/-- Lines 483–491: if the named field holds a string, strip the listed
characters and coerce with `parseFloat`. -/
def coerceNumField (k : String) (cs : List Char) (o : JObj) : JObj :=
  match getKey o k with
  | some (.str s) => setKey o k (parseFloatJS (stripChars cs s))
  | _ => o

/-- The full field-repair normalization applied to a parsed LLM response
object (handler.js, lines 478–491), in source order. -/
def normalizeAiResponse (o : JObj) : JObj :=
  coerceNumField "Burnout_Risk" ['%']
    (coerceNumField "Forecasted_Deviation" ['$', ',', '±']
      (coerceNumField "Forecasted_Cost" ['$', ',']
        (fixBurnoutAlias o)))

/-! ## The zod schemas -/

/-- The validated output of `AiPredictionSchema` (handler.js, lines
18–24). -/
structure AiPrediction where
  Risk : String
  Issues : String
  Forecasted_Cost : ℚ
  Forecasted_Deviation : ℚ
  Burnout_Risk : ℚ
deriving DecidableEq

/-- `AiPredictionSchema.parse`: `Risk` and `Issues` must be strings and the
three numeric fields must be numbers (zod's `z.number()` rejects `NaN` and
non-numbers).  Unknown keys are stripped, so the parse result is exactly
the five typed fields. -/
def aiPredictionParse (o : JObj) : Except String AiPrediction :=
  match getKey o "Risk", getKey o "Issues", getKey o "Forecasted_Cost",
        getKey o "Forecasted_Deviation", getKey o "Burnout_Risk" with
  | some (.str r), some (.str i), some (.num c), some (.num d), some (.num b) =>
      .ok ⟨r, i, c, d, b⟩
  | _, _, _, _, _ => .error "AI prediction failed schema validation"

/-! ## The prediction client with retry

`getAiPredictionsWithRetry` (handler.js, lines 457–507).  The transport
call plus `JSON.parse` of one attempt is abstracted as an oracle
`client : ℕ → Except String JValue`, giving for each attempt index either
the parsed response JSON or the thrown error's message; everything after
that point (field repair and schema validation) is the handler's own code.
The backoff sleep (`exponentialBackoffSleep`) only delays and is modelled
as a no-op. -/

/-- `parseInt(MAX_RETRIES)` with the deployed default `"3"`. -/
def maxRetries : ℕ := 3

/-- One loop iteration after the oracle: repair and validate, propagating
the attempt's error. -/
def runAttempt (resp : Except String JValue) : Except String AiPrediction :=
  match resp with
  | .error e => .error e
  | .ok (.obj o) => aiPredictionParse (normalizeAiResponse o)
  | .ok _ => .error "Cannot use the in operator on a non-object response"

/-- The retry loop from attempt index `attempt` with `fuel` iterations
remaining.  Returns the handler's result (`.ok none` models the
unreachable `return null` after the loop) together with the number of
attempts (client calls) made. -/
def retryAux (client : ℕ → Except String JValue) :
    ℕ → ℕ → Except String (Option AiPrediction) × ℕ
  | _, 0 => (.ok none, 0)
  | attempt, fuel + 1 =>
    match runAttempt (client attempt) with
    | .ok p => (.ok (some p), 1)
    | .error e =>
      if fuel = 0 then
        (.error ("All Groq API attempts failed. Last error: " ++ e), 1)
      else
        let r := retryAux client (attempt + 1) fuel
        (r.1, r.2 + 1)

/-- `getAiPredictionsWithRetry`: run the loop for `maxRetries` attempts. -/
def getAiPredictionsWithRetry (client : ℕ → Except String JValue) :
    Except String (Option AiPrediction) × ℕ :=
  retryAux client 0 maxRetries

/-! ## The SQS payload schema (Message Schema Validator) -/

/-- All characters are decimal digits. -/
def allDigits (l : List Char) : Bool := l.all Char.isDigit

/-- zod's `z.string().datetime()` with default options: the regex
`^\d{4}-\d{2}-\d{2}T\d{2}:\d{2}:\d{2}(\.\d+)?Z$` (shape only — zod does not
range-check the components). -/
def isIsoDatetime (s : String) : Bool :=
  let l := s.toList
  (match l.take 19 with
   | [y1, y2, y3, y4, '-', m1, m2, '-', d1, d2, 'T',
      h1, h2, ':', n1, n2, ':', s1, s2] =>
       allDigits [y1, y2, y3, y4, m1, m2, d1, d2, h1, h2, n1, n2, s1, s2]
   | _ => false)
  &&
  (match l.drop 19 with
   | ['Z'] => true
   | '.' :: r =>
       (match r.reverse with
        | 'Z' :: ds => !ds.isEmpty && allDigits ds
        | _ => false)
   | _ => false)

/-- The typed result of `SqsPayloadSchema.parse` (handler.js, lines 8–16).
`row_index` stays a JS number (`ℚ`); the schema guarantees it is a positive
integer. -/
structure SqsPayload where
  userId : String
  spreadsheet_id : String
  sheet_range : String
  row_index : ℚ
  project_identifier : String
  sync_timestamp : String
  input_data : JObj

/-- `z.string().min(1, msg)` on field `k`. -/
def reqNonEmptyString (o : JObj) (k : String) (msg : String) :
    Except String String :=
  match getKey o k with
  | some (.str s) => if s.isEmpty then .error msg else .ok s
  | _ => .error msg

/-- `z.string()` on field `k`. -/
def reqString (o : JObj) (k : String) : Except String String :=
  match getKey o k with
  | some (.str s) => .ok s
  | _ => .error k

/-- `z.number().int().positive()` on field `k`. -/
def reqPositiveInt (o : JObj) (k : String) : Except String ℚ :=
  match getKey o k with
  | some (.num q) => if q.den = 1 ∧ 0 < q then .ok q else .error k
  | _ => .error k

/-- `z.string().datetime()` on field `k`. -/
def reqDatetime (o : JObj) (k : String) : Except String String :=
  match getKey o k with
  | some (.str s) => if isIsoDatetime s then .ok s else .error k
  | _ => .error k

/-- `z.record(z.any())` on field `k`: any object. -/
def reqRecord (o : JObj) (k : String) : Except String JObj :=
  match getKey o k with
  | some (.obj d) => .ok d
  | _ => .error k

/-- `SqsPayloadSchema.parse (JSON.parse(record.body))`: the deployed
variant additionally requires a non-empty `userId` (line 9).  The model
reports the first violated field; zod accumulates all issues in one
`ZodError`, a difference only in the error message. -/
def validateSqsPayload (j : JValue) : Except String SqsPayload :=
  match j with
  | .obj o =>
      (reqNonEmptyString o "userId" "User ID is required in the SQS message").bind fun u =>
      (reqNonEmptyString o "spreadsheet_id" "Spreadsheet ID is required.").bind fun sid =>
      (reqNonEmptyString o "sheet_range" "Sheet range is required.").bind fun srange =>
      (reqPositiveInt o "row_index").bind fun ri =>
      (reqString o "project_identifier").bind fun pid =>
      (reqDatetime o "sync_timestamp").bind fun ts =>
      (reqRecord o "input_data").bind fun idata =>
      .ok ⟨u, sid, srange, ri, pid, ts, idata⟩
  | _ => .error "SQS payload is not a JSON object"

/-! ## The MongoDB document schema and persistence -/

/-- `AiPredictionSchema`'s parse output serialized back as the JS object
stored under `ai_predictions`. -/
def predToJObj (p : AiPrediction) : JObj :=
  [("Risk", .str p.Risk), ("Issues", .str p.Issues),
   ("Forecasted_Cost", .num p.Forecasted_Cost),
   ("Forecasted_Deviation", .num p.Forecasted_Deviation),
   ("Burnout_Risk", .num p.Burnout_Risk)]

/-- `MongoDbSchema.parse` (handler.js, lines 26–54).  The source's
`z.instanceof(Object(Id))` references the mangled name of the BSON
ObjectId class (`Id` is not otherwise defined); it is modelled as the
evident instance check for the ObjectId wrapper, `JValue.userIdObj`.
`source_data` declares only optional keys and `.passthrough(false)`
(zod's `passthrough` ignores its argument), so any object passes.
zod returns a stripped copy whose keys coincide with the document the
handler builds, so the parse returns the input document on success. -/
def mongoDocParse (d : JObj) : Except String JObj :=
  match getKey d "userId", getKey d "spreadsheet_id", getKey d "row_index",
        getKey d "project_identifier", getKey d "sync_timestamp",
        getKey d "source_data", getKey d "ai_predictions",
        getKey d "last_processed_at" with
  | some (.userIdObj _), some (.str _), some (.num _), some (.str _),
    some (.str ts), some (.obj _), some (.obj ap), some (.str lp) =>
      if isIsoDatetime ts ∧ isIsoDatetime lp ∧ (aiPredictionParse ap).isOk then
        .ok d
      else .error "Mongo document failed schema validation"
  | _, _, _, _, _, _, _, _ => .error "Mongo document failed schema validation"

/-- Does a stored document match a MongoDB equality filter?  Every filter
field must be present with an equal value. -/
def matchesFilter (d : JObj) (f : JObj) : Bool :=
  f.all (fun kv =>
    match getKey d kv.1 with
    | some v => JValue.beq v kv.2
    | none => false)

/-- `$set`: write every field of `setDoc` into `doc`, in order. -/
def applySet (doc setDoc : JObj) : JObj :=
  setDoc.foldl (fun d kv => setKey d kv.1 kv.2) doc

/-- `collection.updateOne(filter, { $set: setDoc }, { upsert: true })` on a
store modelled as the ordered list of documents: update the first match
with `$set`, or, with no match, insert a new document built from the
filter's equality fields with `$set` applied (the server-generated `_id`
is not modelled). -/
def updateOneUpsert (filter setDoc : JObj) : List JObj → List JObj
  | [] => [applySet filter setDoc]
  | d :: rest =>
      if matchesFilter d filter then applySet d setDoc :: rest
      else d :: updateOneUpsert filter setDoc rest

/-- Number of stored documents matching a filter. -/
def countMatching (f : JObj) (store : List JObj) : ℕ :=
  (store.filter (fun d => matchesFilter d f)).length

/-- `storeDocumentWithRetry` (handler.js, lines 509–544): retrying upsert
of one document.  Storage-layer faults are outside the model (every
`updateOne` is acknowledged), so the first attempt succeeds and the
function returns `true`; its retry/backoff loop is textually the one of
`getAiPredictionsWithRetry`. -/
def storeDocumentWithRetry (document upsertKey : JObj) (store : List JObj) :
    Bool × List JObj :=
  (true, updateOneUpsert upsertKey document store)

/-! ## The per-message pipeline and the batch handler -/

/-- One inbound SQS record: its `messageId` and the result of
`JSON.parse(record.body)` (`.error e` models a body that is not valid
JSON). -/
structure SqsRecord where
  messageId : String
  body : Except String JValue

/-- Per-record result object built by `processSingleRecord`. -/
structure RecResult where
  success : Bool
  record_id : String
  err : Option String
deriving DecidableEq

/-- Everything observable about one `processSingleRecord` run: its result,
the store afterwards, the number of LLM-client calls, and the number of
store writes attempted. -/
structure RecOutcome where
  res : RecResult
  store : List JObj
  llmCalls : ℕ
  storeWrites : ℕ

/-- The document literal of handler.js lines 560–569. -/
def buildDocument (uid : JValue) (payload : SqsPayload) (p : AiPrediction)
    (now : String) : JObj :=
  [("userId", uid),
   ("spreadsheet_id", .str payload.spreadsheet_id),
   ("row_index", .num payload.row_index),
   ("project_identifier", .str payload.project_identifier),
   ("sync_timestamp", .str payload.sync_timestamp),
   ("source_data", .obj payload.input_data),
   ("ai_predictions", .obj (predToJObj p)),
   ("last_processed_at", .str now)]

/-- The upsert key literal of handler.js line 574. -/
def buildUpsertKey (payload : SqsPayload) (uid : JValue) : JObj :=
  [("spreadsheet_id", .str payload.spreadsheet_id),
   ("row_index", .num payload.row_index),
   ("userId", uid)]

/-- `processSingleRecord` (handler.js, lines 546–586), parameterized over
`mkUser`, the semantics of the source's `new onrejectionhandled(userId)`
(lines 561 and 574): `.error` models the expression throwing, `.ok`
models it building a wrapper object.  `now` is `new Date().toISOString()`.
Every stage error is caught by the function's own try/catch and turned
into a `success: false` result. -/
def processSingleRecord (mkUser : String → Except String JValue)
    (client : ℕ → Except String JValue) (now : String)
    (store : List JObj) (record : SqsRecord) : RecOutcome :=
  let fail := fun (e : String) (calls : ℕ) =>
    RecOutcome.mk ⟨false, record.messageId, some e⟩ store calls 0
  match record.body with
  | .error e => fail e 0
  | .ok j =>
    match validateSqsPayload j with
    | .error e => fail e 0
    | .ok payload =>
      let pr := getAiPredictionsWithRetry client
      match pr.1 with
      | .error e => fail e pr.2
      | .ok none => fail "Received null predictions from AI service." pr.2
      | .ok (some p) =>
        match mkUser payload.userId with
        | .error e => fail e pr.2
        | .ok uid =>
          match mongoDocParse (buildDocument uid payload p now) with
          | .error e => fail e pr.2
          | .ok vdoc =>
            match mkUser payload.userId with
            | .error e => fail e pr.2
            | .ok uid2 =>
              let w := storeDocumentWithRetry vdoc (buildUpsertKey payload uid2) store
              ⟨⟨true, record.messageId, none⟩, w.2, pr.2, 1⟩

/-- Literal semantics of `new onrejectionhandled(userId)`: the identifier
`onrejectionhandled` is not defined in the Node.js runtime, so the
expression throws a `ReferenceError`. -/
def mkUserThrows (_u : String) : Except String JValue :=
  .error "onrejectionhandled is not defined"

/-- Intended semantics of the same expression: wrap the user id string in
a BSON ObjectId object. -/
def mkUserObjectId (u : String) : Except String JValue :=
  .ok (.userIdObj u)

/-- Sequential processing of the batch.  `Promise.all` interleaves the
per-record tasks on one thread with no ordering guarantee between records;
the records are independent except for the shared store, which the model
threads in batch order.  Returns the per-record results in batch order,
the final store, and the total number of LLM-client calls. -/
def processAll (mkUser : String → Except String JValue)
    (client : SqsRecord → ℕ → Except String JValue) (now : String) :
    List JObj → List SqsRecord → List RecResult × List JObj × ℕ
  | store, [] => ([], store, 0)
  | store, r :: rs =>
      let o := processSingleRecord mkUser (client r) now store r
      let rest := processAll mkUser client now o.store rs
      (o.res :: rest.1, rest.2.1, o.llmCalls + rest.2.2)

/-- The Lambda `handler` (handler.js, lines 588–615), parameterized by the
result `ping` of `testMongodbConnection` (lines 446–455: `true` when the
admin ping succeeds).  When the ping fails it returns every record's id as
a batch item failure without touching any record; otherwise it processes
all records and returns the ids of the failed ones.  Result: the
`batchItemFailures` identifiers in batch order, the final store, and the
total number of LLM-client calls. -/
def handler (mkUser : String → Except String JValue)
    (client : SqsRecord → ℕ → Except String JValue) (now : String)
    (ping : Bool) (store : List JObj) (records : List SqsRecord) :
    List String × List JObj × ℕ :=
  if !ping then (records.map (fun r => r.messageId), store, 0)
  else
    let res := processAll mkUser client now store records
    ((res.1.filter (fun r => !r.success)).map (fun r => r.record_id),
     res.2.1, res.2.2)

/-- Is an `Except` value an error? -/
def isErr {ε α : Type} : Except ε α → Bool
  | .error _ => true
  | .ok _ => false

/-! ## Concrete fixtures used by the closed evaluations -/

/-- A well-formed message body for the given user, project and row. -/
def bodyFor (uid pid : String) (ri : ℚ) : JValue := .obj
  [("userId", .str uid), ("spreadsheet_id", .str "sheet-1"),
   ("sheet_range", .str "A1:Z9"), ("row_index", .num ri),
   ("project_identifier", .str pid),
   ("sync_timestamp", .str "2024-01-01T00:00:00Z"),
   ("input_data", .obj [("Program", .str "Apollo")])]

def rec1 : SqsRecord := ⟨"m1", .ok (bodyFor "user-1" "proj-1" 1)⟩

/-- The middle message of the three-message batch: `row_index: -1` fails
`z.number().int().positive()`. -/
def rec2 : SqsRecord := ⟨"m2", .ok (bodyFor "user-2" "proj-2" (-1))⟩

def rec3 : SqsRecord := ⟨"m3", .ok (bodyFor "user-3" "proj-3" 3)⟩

/-- A valid, already-numeric LLM reply. -/
def goodResponse : JObj :=
  [("Risk", .str "Tech Debt"), ("Issues", .str "Overtime reported"),
   ("Forecasted_Cost", .num 12345), ("Forecasted_Deviation", .num (-1200)),
   ("Burnout_Risk", .num 70)]

/-- The prediction `goodResponse` validates to. -/
def goodPrediction : AiPrediction :=
  ⟨"Tech Debt", "Overtime reported", 12345, -1200, 70⟩

/-- An LLM client that always answers `goodResponse`, for every record. -/
def goodClient (_r : SqsRecord) (_i : ℕ) : Except String JValue :=
  .ok (.obj goodResponse)

/-- The same client, for a single record. -/
def aiClientGood (_i : ℕ) : Except String JValue := .ok (.obj goodResponse)

/-- A client whose transport fails on attempts 1 and 2 and succeeds on
attempt 3. -/
def flakyClient (i : ℕ) : Except String JValue :=
  if i < 2 then .error "rate limited" else .ok (.obj goodResponse)

/-- A client that always fails transport. -/
def deadClient (_i : ℕ) : Except String JValue := .error "connect timeout"

/-- The write timestamp used by the closed evaluations. -/
def nowTs : String := "2024-06-01T10:00:00Z"

/-- An LLM reply that is type-correct but violates the spec's closed sets
and the 0–100 burnout range. -/
def wildResponse : JObj :=
  [("Risk", .str "Quantum Flu"), ("Issues", .str "Nothing"),
   ("Forecasted_Cost", .num 1), ("Forecasted_Deviation", .num 2),
   ("Burnout_Risk", .num 150)]

def wildClient (_i : ℕ) : Except String JValue := .ok (.obj wildResponse)

/-- An LLM reply whose `Forecasted_Cost` is the currency string
`"±$1,200"`. -/
def mixedCostResponse : JObj :=
  [("Risk", .str "Tech Debt"), ("Issues", .str "Overtime reported"),
   ("Forecasted_Cost", .str "±$1,200"), ("Forecasted_Deviation", .num 0),
   ("Burnout_Risk", .num 70)]

/-- An LLM reply using the `Burnout` alias with a percent string. -/
def aliasResponse : JObj :=
  [("Risk", .str "Resource Constraints"), ("Issues", .str "Budget cut"),
   ("Forecasted_Cost", .num 100), ("Forecasted_Deviation", .num 5),
   ("Burnout", .str "55%")]

/-- A stored document written by an earlier deployment: it matches the
upsert key but carries an extra `legacy` field. -/
def legacyDoc : JObj :=
  [("spreadsheet_id", .str "sheet-1"), ("row_index", .num 1),
   ("userId", .userIdObj "user-1"), ("legacy", .str "old")]

/-- A typical upsert key. -/
def exKey : JObj :=
  [("spreadsheet_id", .str "sheet-1"), ("row_index", .num 1),
   ("userId", .userIdObj "user-1")]

/-- A typical complete document for `exKey` (no `legacy` field). -/
def exDoc : JObj :=
  [("userId", .userIdObj "user-1"), ("spreadsheet_id", .str "sheet-1"),
   ("row_index", .num 1), ("project_identifier", .str "proj-1"),
   ("sync_timestamp", .str "2024-01-01T00:00:00Z"),
   ("source_data", .obj [("Program", .str "Apollo")]),
   ("ai_predictions", .obj goodResponse),
   ("last_processed_at", .str nowTs)]

/-- A message body with every field of `bodyFor` except
`project_identifier`. -/
def noProjectBody : JObj :=
  [("userId", .str "user-4"), ("spreadsheet_id", .str "sheet-1"),
   ("sheet_range", .str "A1:Z9"), ("row_index", .num 4),
   ("sync_timestamp", .str "2024-01-01T00:00:00Z"),
   ("input_data", .obj [])]

/-- A message body with every spec-required field, valid, but no
`userId`. -/
def noUserIdBody : JObj :=
  [("spreadsheet_id", .str "sheet-1"), ("sheet_range", .str "A1:Z9"),
   ("row_index", .num 5), ("project_identifier", .str "proj-5"),
   ("sync_timestamp", .str "2024-01-01T00:00:00Z"),
   ("input_data", .obj [])]

/-! ## Lemmas about object access -/

theorem getKey_some_mem {o : JObj} {k : String} {v : JValue}
    (h : getKey o k = some v) : (k, v) ∈ o := by
  induction o with
  | nil => simp [getKey] at h
  | cons kv rest ih =>
    obtain ⟨k1, v1⟩ := kv
    by_cases hk : k1 = k
    · subst hk
      simp [getKey] at h
      subst h
      exact List.mem_cons_self _ _
    · simp [getKey, hk] at h
      exact List.mem_cons_of_mem _ (ih h)

theorem getKey_mem_keys {o : JObj} {k : String} {v : JValue}
    (h : getKey o k = some v) : k ∈ keysOf o := by
  have := getKey_some_mem h
  exact List.mem_map.mpr ⟨(k, v), this, rfl⟩

theorem keysOf_cons (k1 : String) (v1 : JValue) (rest : JObj) :
    keysOf ((k1, v1) :: rest) = k1 :: keysOf rest := rfl

theorem getKey_eq_none_of_not_mem {o : JObj} {k : String}
    (h : k ∉ keysOf o) : getKey o k = none := by
  induction o with
  | nil => rfl
  | cons kv rest ih =>
    obtain ⟨k1, v1⟩ := kv
    rw [keysOf_cons, List.mem_cons] at h
    push_neg at h
    show (if k1 = k then some v1 else getKey rest k) = none
    rw [if_neg (fun he => h.1 he.symm), ih h.2]

theorem getKey_setKey_self (o : JObj) (k : String) (v : JValue) :
    getKey (setKey o k v) k = some v := by
  induction o with
  | nil => simp [setKey, getKey]
  | cons kv rest ih =>
    obtain ⟨k1, v1⟩ := kv
    by_cases hk : k1 = k
    · simp [setKey, hk, getKey]
    · simp only [setKey, if_neg hk]
      show (if k1 = k then some v1 else getKey (setKey rest k v) k) = some v
      rw [if_neg hk, ih]

theorem getKey_setKey_other {k k2 : String} (hne : k2 ≠ k)
    (o : JObj) (v : JValue) :
    getKey (setKey o k v) k2 = getKey o k2 := by
  induction o with
  | nil =>
    show (if k = k2 then some v else getKey [] k2) = getKey [] k2
    rw [if_neg (fun he => hne he.symm)]
  | cons kv rest ih =>
    obtain ⟨k1, v1⟩ := kv
    by_cases hk : k1 = k
    · simp only [setKey, if_pos hk]
      show (if k = k2 then some v else getKey rest k2)
        = if k1 = k2 then some v1 else getKey rest k2
      rw [if_neg (fun he => hne he.symm), if_neg (hk ▸ fun he => hne he.symm)]
    · simp only [setKey, if_neg hk]
      show (if k1 = k2 then some v1 else getKey (setKey rest k v) k2)
        = if k1 = k2 then some v1 else getKey rest k2
      by_cases hk2 : k1 = k2
      · rw [if_pos hk2, if_pos hk2]
      · rw [if_neg hk2, if_neg hk2, ih]

theorem setKey_self_eq {o : JObj} {k : String} {v : JValue}
    (h : getKey o k = some v) : setKey o k v = o := by
  induction o with
  | nil => simp [getKey] at h
  | cons kv rest ih =>
    obtain ⟨k1, v1⟩ := kv
    have hg : (if k1 = k then some v1 else getKey rest k) = some v := h
    by_cases hk : k1 = k
    · rw [if_pos hk] at hg
      injection hg with hv
      simp only [setKey, if_pos hk]
      rw [hv, hk]
    · rw [if_neg hk] at hg
      simp only [setKey, if_neg hk]
      rw [ih hg]

theorem getKey_delKey_self (o : JObj) (k : String) :
    getKey (delKey o k) k = none := by
  induction o with
  | nil => rfl
  | cons kv rest ih =>
    obtain ⟨k1, v1⟩ := kv
    by_cases hk : k1 = k
    · simp only [delKey, if_pos hk]
      exact ih
    · simp only [delKey, if_neg hk]
      show (if k1 = k then some v1 else getKey (delKey rest k) k) = none
      rw [if_neg hk, ih]

theorem getKey_delKey_other {k k2 : String} (hne : k2 ≠ k) (o : JObj) :
    getKey (delKey o k) k2 = getKey o k2 := by
  induction o with
  | nil => rfl
  | cons kv rest ih =>
    obtain ⟨k1, v1⟩ := kv
    by_cases hk : k1 = k
    · simp only [delKey, if_pos hk]
      rw [ih]
      show getKey rest k2 = if k1 = k2 then some v1 else getKey rest k2
      rw [if_neg (fun he : k1 = k2 => hne (he ▸ hk))]
    · simp only [delKey, if_neg hk]
      show (if k1 = k2 then some v1 else getKey (delKey rest k) k2)
        = if k1 = k2 then some v1 else getKey rest k2
      by_cases hk2 : k1 = k2
      · rw [if_pos hk2, if_pos hk2]
      · rw [if_neg hk2, if_neg hk2, ih]

/-! ## Reflexivity of value equality -/

mutual

theorem beq_refl : ∀ v : JValue, JValue.beq v v = true
  | .str s => by simp [JValue.beq]
  | .num q => by simp [JValue.beq]
  | .nan => by simp [JValue.beq]
  | .jbool b => by simp [JValue.beq]
  | .jnull => by simp [JValue.beq]
  | .userIdObj s => by simp [JValue.beq]
  | .obj o => by simp [JValue.beq, beqEntries_refl o]

theorem beqEntries_refl : ∀ l : List (String × JValue), beqEntries l l = true
  | [] => by simp [beqEntries]
  | (k, v) :: rest => by
      simp [beqEntries, beq_refl v, beqEntries_refl rest]

end

/-! ## Lemmas about `$set` -/

theorem applySet_cons (d : JObj) (k1 : String) (v1 : JValue) (rest : JObj) :
    applySet d ((k1, v1) :: rest) = applySet (setKey d k1 v1) rest := rfl

theorem applySet_getKey_not_mem {sd : JObj} {k : String}
    (h : k ∉ keysOf sd) (d : JObj) :
    getKey (applySet d sd) k = getKey d k := by
  induction sd generalizing d with
  | nil => rfl
  | cons kv rest ih =>
    obtain ⟨k1, v1⟩ := kv
    rw [keysOf_cons, List.mem_cons] at h
    push_neg at h
    rw [applySet_cons, ih h.2, getKey_setKey_other h.1 d v1]

theorem applySet_getKey_of_nodup {sd : JObj} (hnd : (keysOf sd).Nodup) :
    ∀ {k : String} {v : JValue}, (k, v) ∈ sd → ∀ d : JObj,
    getKey (applySet d sd) k = some v := by
  induction sd with
  | nil => intro k v h _; simp at h
  | cons kv rest ih =>
    obtain ⟨k1, v1⟩ := kv
    intro k v hmem d
    rw [keysOf_cons, List.nodup_cons] at hnd
    rcases List.mem_cons.mp hmem with heq | hrest
    · injection heq with hk hv
      subst hk
      subst hv
      rw [applySet_cons, applySet_getKey_not_mem hnd.1, getKey_setKey_self]
    · rw [applySet_cons]
      exact ih hnd.2 hrest (setKey d k1 v1)

theorem applySet_fixed {sd d : JObj}
    (h : ∀ kv ∈ sd, getKey d kv.1 = some kv.2) : applySet d sd = d := by
  induction sd with
  | nil => rfl
  | cons kv rest ih =>
    obtain ⟨k1, v1⟩ := kv
    rw [applySet_cons, setKey_self_eq (h (k1, v1) (List.mem_cons_self _ _))]
    exact ih (fun kv hkv => h kv (List.mem_cons_of_mem _ hkv))

theorem applySet_idem {sd : JObj} (hnd : (keysOf sd).Nodup) (d : JObj) :
    applySet (applySet d sd) sd = applySet d sd :=
  applySet_fixed (fun _kv hkv => applySet_getKey_of_nodup hnd hkv d)

/-- If every filter field is a field of `setDoc` with the same value, then
any document with `setDoc` `$set` onto it matches the filter. -/
theorem matchesFilter_applySet {setDoc key : JObj}
    (hnd : (keysOf setDoc).Nodup)
    (hcons : ∀ kv ∈ key, getKey setDoc kv.1 = some kv.2) (d : JObj) :
    matchesFilter (applySet d setDoc) key = true := by
  simp only [matchesFilter, List.all_eq_true]
  intro kv hkv
  have h1 := hcons kv hkv
  have h2 := applySet_getKey_of_nodup hnd (getKey_some_mem h1) d
  simp [h2, beq_refl]

/-! ## Lemmas about the upsert -/

theorem countMatching_nil (f : JObj) : countMatching f [] = 0 := rfl

theorem countMatching_cons_pos {f d : JObj} (h : matchesFilter d f = true)
    (rest : List JObj) :
    countMatching f (d :: rest) = countMatching f rest + 1 := by
  simp [countMatching, List.filter_cons, h]

theorem countMatching_cons_neg {f d : JObj} (h : ¬ matchesFilter d f = true)
    (rest : List JObj) :
    countMatching f (d :: rest) = countMatching f rest := by
  simp [countMatching, List.filter_cons, h]

theorem countMatching_eq_zero {f : JObj} {store : List JObj}
    (h : countMatching f store = 0) :
    ∀ d ∈ store, ¬ matchesFilter d f = true := by
  rw [countMatching, List.length_eq_zero, List.filter_eq_nil_iff] at h
  exact h

/-- Running the upsert twice with a key-consistent document (each key
field appears in the document with the same value) on a store holding at
most one match: the second run is a no-op, exactly one stored document
matches the key afterwards, and every matching document carries the
document's field values. -/
theorem upsert_idem_spec {doc key : JObj}
    (hnd : (keysOf doc).Nodup)
    (hcons : ∀ kv ∈ key, getKey doc kv.1 = some kv.2) :
    ∀ store : List JObj, countMatching key store ≤ 1 →
      updateOneUpsert key doc (updateOneUpsert key doc store)
          = updateOneUpsert key doc store
      ∧ countMatching key (updateOneUpsert key doc store) = 1
      ∧ ∀ d ∈ updateOneUpsert key doc store, matchesFilter d key = true →
          ∀ kv ∈ doc, getKey d kv.1 = some kv.2 := by
  intro store
  induction store with
  | nil =>
    intro _
    have hm : matchesFilter (applySet key doc) key = true :=
      matchesFilter_applySet hnd hcons key
    refine ⟨?_, ?_, ?_⟩
    · show updateOneUpsert key doc [applySet key doc] = [applySet key doc]
      simp only [updateOneUpsert, if_pos hm]
      rw [applySet_idem hnd]
    · show countMatching key [applySet key doc] = 1
      rw [countMatching_cons_pos hm, countMatching_nil]
    · intro d hd hmd kv hkv
      simp only [updateOneUpsert] at hd
      rw [List.mem_singleton] at hd
      subst hd
      exact applySet_getKey_of_nodup hnd hkv key
  | cons d0 rest ih =>
    intro hcount
    by_cases h0 : matchesFilter d0 key = true
    · have hrest0 : ∀ d ∈ rest, ¬ matchesFilter d key = true := by
        apply countMatching_eq_zero
        rw [countMatching_cons_pos h0] at hcount
        omega
      have hm : matchesFilter (applySet d0 doc) key = true :=
        matchesFilter_applySet hnd hcons d0
      refine ⟨?_, ?_, ?_⟩
      · show updateOneUpsert key doc
            (updateOneUpsert key doc (d0 :: rest))
            = updateOneUpsert key doc (d0 :: rest)
        simp only [updateOneUpsert, if_pos h0, if_pos hm]
        rw [applySet_idem hnd]
      · show countMatching key (updateOneUpsert key doc (d0 :: rest)) = 1
        simp only [updateOneUpsert, if_pos h0]
        rw [countMatching_cons_pos hm]
        have : countMatching key rest = 0 := by
          rw [countMatching_cons_pos h0] at hcount
          omega
        rw [this]
      · intro d hd hmd kv hkv
        simp only [updateOneUpsert, if_pos h0] at hd
        rcases List.mem_cons.mp hd with rfl | hdr
        · exact applySet_getKey_of_nodup hnd hkv d0
        · exact absurd hmd (hrest0 d hdr)
    · have hcount2 : countMatching key rest ≤ 1 := by
        rw [countMatching_cons_neg h0] at hcount
        exact hcount
      obtain ⟨ih1, ih2, ih3⟩ := ih hcount2
      refine ⟨?_, ?_, ?_⟩
      · show updateOneUpsert key doc
            (updateOneUpsert key doc (d0 :: rest))
            = updateOneUpsert key doc (d0 :: rest)
        simp only [updateOneUpsert, if_neg h0]
        rw [ih1]
      · show countMatching key (updateOneUpsert key doc (d0 :: rest)) = 1
        simp only [updateOneUpsert, if_neg h0]
        rw [countMatching_cons_neg h0, ih2]
      · intro d hd hmd kv hkv
        simp only [updateOneUpsert, if_neg h0] at hd
        rcases List.mem_cons.mp hd with rfl | hdr
        · exact absurd hmd h0
        · exact ih3 d hdr hmd kv hkv

/-- With no stored match, the upsert appends the inserted document (filter
fields with `$set` applied). -/
theorem upsert_no_match {key setDoc : JObj} :
    ∀ {store : List JObj}, (∀ d ∈ store, ¬ matchesFilter d key = true) →
      updateOneUpsert key setDoc store = store ++ [applySet key setDoc] := by
  intro store
  induction store with
  | nil => intro _; rfl
  | cons d0 rest ih =>
    intro h
    have h0 := h d0 (List.mem_cons_self _ _)
    simp only [updateOneUpsert, if_neg h0]
    rw [ih (fun d hd => h d (List.mem_cons_of_mem _ hd))]
    rfl

/-- With a first match `m` (everything before it not matching), the upsert
rewrites exactly `m` by `$set` and leaves every other document in place. -/
theorem upsert_first_match {key setDoc m : JObj} :
    ∀ {pre : List JObj}, (∀ d ∈ pre, ¬ matchesFilter d key = true) →
      matchesFilter m key = true → ∀ post : List JObj,
      updateOneUpsert key setDoc (pre ++ m :: post)
        = pre ++ applySet m setDoc :: post := by
  intro pre
  induction pre with
  | nil =>
    intro _ hm post
    simp only [List.nil_append, updateOneUpsert, if_pos hm]
  | cons d0 rest ih =>
    intro h hm post
    have h0 := h d0 (List.mem_cons_self _ _)
    simp only [List.cons_append, updateOneUpsert, if_neg h0]
    show d0 :: updateOneUpsert key setDoc (rest ++ m :: post)
      = d0 :: (rest ++ applySet m setDoc :: post)
    rw [ih (fun d hd => h d (List.mem_cons_of_mem _ hd)) hm post]

/-! ## Lemmas about the retry loop -/

theorem isErr_iff {ε α : Type} {x : Except ε α} :
    isErr x = true ↔ ∃ e, x = .error e := by
  cases x <;> simp [isErr]

theorem retry_ok0 {client : ℕ → Except String JValue} {p : AiPrediction}
    (h0 : runAttempt (client 0) = .ok p) :
    getAiPredictionsWithRetry client = (.ok (some p), 1) := by
  simp [getAiPredictionsWithRetry, maxRetries, retryAux, h0]

theorem retry_ok1 {client : ℕ → Except String JValue} {e0 : String}
    {p : AiPrediction}
    (h0 : runAttempt (client 0) = .error e0)
    (h1 : runAttempt (client 1) = .ok p) :
    getAiPredictionsWithRetry client = (.ok (some p), 2) := by
  simp [getAiPredictionsWithRetry, maxRetries, retryAux, h0, h1]

theorem retry_ok2 {client : ℕ → Except String JValue} {e0 e1 : String}
    {p : AiPrediction}
    (h0 : runAttempt (client 0) = .error e0)
    (h1 : runAttempt (client 1) = .error e1)
    (h2 : runAttempt (client 2) = .ok p) :
    getAiPredictionsWithRetry client = (.ok (some p), 3) := by
  simp [getAiPredictionsWithRetry, maxRetries, retryAux, h0, h1, h2]

theorem retry_err {client : ℕ → Except String JValue} {e0 e1 e2 : String}
    (h0 : runAttempt (client 0) = .error e0)
    (h1 : runAttempt (client 1) = .error e1)
    (h2 : runAttempt (client 2) = .error e2) :
    getAiPredictionsWithRetry client
      = (.error ("All Groq API attempts failed. Last error: " ++ e2), 3) := by
  simp [getAiPredictionsWithRetry, maxRetries, retryAux, h0, h1, h2]

/-! ## Inversion of the schema parses -/

theorem aiPredictionParse_ok {o : JObj} {p : AiPrediction}
    (h : aiPredictionParse o = .ok p) :
    getKey o "Risk" = some (.str p.Risk)
    ∧ getKey o "Issues" = some (.str p.Issues)
    ∧ getKey o "Forecasted_Cost" = some (.num p.Forecasted_Cost)
    ∧ getKey o "Forecasted_Deviation" = some (.num p.Forecasted_Deviation)
    ∧ getKey o "Burnout_Risk" = some (.num p.Burnout_Risk) := by
  unfold aiPredictionParse at h
  split at h
  · rename_i r i c d b hr hi hc hd hb
    injection h with hp
    subst hp
    exact ⟨hr, hi, hc, hd, hb⟩
  · simp at h

theorem reqNonEmptyString_ok {o : JObj} {k m s : String}
    (h : reqNonEmptyString o k m = .ok s) :
    getKey o k = some (.str s) ∧ s.isEmpty = false := by
  unfold reqNonEmptyString at h
  split at h
  · rename_i s1 hs1
    split at h
    · simp at h
    · rename_i hne
      injection h with hs
      subst hs
      exact ⟨hs1, by simpa using hne⟩
  · simp at h

theorem reqString_ok {o : JObj} {k s : String}
    (h : reqString o k = .ok s) : getKey o k = some (.str s) := by
  unfold reqString at h
  split at h
  · rename_i s1 hs1
    injection h with hs
    subst hs
    exact hs1
  · simp at h

theorem reqPositiveInt_ok {o : JObj} {k : String} {q : ℚ}
    (h : reqPositiveInt o k = .ok q) :
    getKey o k = some (.num q) ∧ q.den = 1 ∧ 0 < q := by
  unfold reqPositiveInt at h
  split at h
  · rename_i q1 hq1
    split at h
    · rename_i hpos
      injection h with hq
      subst hq
      exact ⟨hq1, hpos⟩
    · simp at h
  · simp at h

theorem reqDatetime_ok {o : JObj} {k s : String}
    (h : reqDatetime o k = .ok s) :
    getKey o k = some (.str s) ∧ isIsoDatetime s = true := by
  unfold reqDatetime at h
  split at h
  · rename_i s1 hs1
    split at h
    · rename_i hdt
      injection h with hs
      subst hs
      exact ⟨hs1, hdt⟩
    · simp at h
  · simp at h

theorem validateSqsPayload_ok {o : JObj} {payload : SqsPayload}
    (h : validateSqsPayload (.obj o) = .ok payload) :
    getKey o "userId" = some (.str payload.userId)
    ∧ payload.userId.isEmpty = false
    ∧ getKey o "row_index" = some (.num payload.row_index)
    ∧ payload.row_index.den = 1 ∧ 0 < payload.row_index
    ∧ getKey o "project_identifier" = some (.str payload.project_identifier)
    ∧ getKey o "sync_timestamp" = some (.str payload.sync_timestamp)
    ∧ isIsoDatetime payload.sync_timestamp = true := by
  simp only [validateSqsPayload] at h
  cases h1 : reqNonEmptyString o "userId" "User ID is required in the SQS message" with
  | error e => rw [h1] at h; simp [Except.bind] at h
  | ok u =>
  rw [h1] at h
  simp only [Except.bind] at h
  cases h2 : reqNonEmptyString o "spreadsheet_id" "Spreadsheet ID is required." with
  | error e => rw [h2] at h; simp [Except.bind] at h
  | ok sid =>
  rw [h2] at h
  simp only [Except.bind] at h
  cases h3 : reqNonEmptyString o "sheet_range" "Sheet range is required." with
  | error e => rw [h3] at h; simp [Except.bind] at h
  | ok srange =>
  rw [h3] at h
  simp only [Except.bind] at h
  cases h4 : reqPositiveInt o "row_index" with
  | error e => rw [h4] at h; simp [Except.bind] at h
  | ok ri =>
  rw [h4] at h
  simp only [Except.bind] at h
  cases h5 : reqString o "project_identifier" with
  | error e => rw [h5] at h; simp [Except.bind] at h
  | ok pid =>
  rw [h5] at h
  simp only [Except.bind] at h
  cases h6 : reqDatetime o "sync_timestamp" with
  | error e => rw [h6] at h; simp [Except.bind] at h
  | ok ts =>
  rw [h6] at h
  simp only [Except.bind] at h
  cases h7 : reqRecord o "input_data" with
  | error e => rw [h7] at h; simp [Except.bind] at h
  | ok idata =>
  rw [h7] at h
  simp only [Except.bind] at h
  have hp : SqsPayload.mk u sid srange ri pid ts idata = payload := by
    injection h
  subst hp
  obtain ⟨hu, hune⟩ := reqNonEmptyString_ok h1
  obtain ⟨hri, hint, hpos⟩ := reqPositiveInt_ok h4
  obtain ⟨hts, hiso⟩ := reqDatetime_ok h6
  exact ⟨hu, hune, hri, hint, hpos, reqString_ok h5, hts, hiso⟩

/-! ## Lemmas about the field-repair normalization -/

theorem getKey_coerce_other {k k2 : String} (hne : k2 ≠ k)
    (cs : List Char) (o : JObj) :
    getKey (coerceNumField k cs o) k2 = getKey o k2 := by
  unfold coerceNumField
  cases hg : getKey o k with
  | none => rfl
  | some v => cases v <;> first | rfl | exact getKey_setKey_other hne o _

theorem getKey_coerce_self_str {k : String} {cs : List Char} {o : JObj}
    {s : String} (hg : getKey o k = some (.str s)) :
    getKey (coerceNumField k cs o) k
      = some (parseFloatJS (stripChars cs s)) := by
  unfold coerceNumField
  rw [hg]
  exact getKey_setKey_self o k _

theorem fixBurnoutAlias_of_hasRisk {o : JObj}
    (h : hasKey o "Burnout_Risk" = true) : fixBurnoutAlias o = o := by
  unfold fixBurnoutAlias
  cases hg : getKey o "Burnout" with
  | none => rfl
  | some v => rw [h]

theorem fixBurnoutAlias_moves {o : JObj} {v : JValue}
    (hb : getKey o "Burnout" = some v)
    (hnr : hasKey o "Burnout_Risk" = false) :
    getKey (fixBurnoutAlias o) "Burnout" = none
    ∧ getKey (fixBurnoutAlias o) "Burnout_Risk" = some v := by
  unfold fixBurnoutAlias
  rw [hb, hnr]
  refine ⟨getKey_delKey_self _ _, ?_⟩
  rw [getKey_delKey_other (by decide) _]
  exact getKey_setKey_self _ _ _

theorem fixBurnoutAlias_getKey_other {k : String}
    (hb : k ≠ "Burnout") (hbr : k ≠ "Burnout_Risk") (o : JObj) :
    getKey (fixBurnoutAlias o) k = getKey o k := by
  unfold fixBurnoutAlias
  cases hg : getKey o "Burnout" with
  | none => rfl
  | some v =>
    cases hr : hasKey o "Burnout_Risk" with
    | true => rfl
    | false =>
      rw [getKey_delKey_other hb, getKey_setKey_other hbr]

/-! ## Lemmas about the per-record pipeline -/

/-- Inversion of one attempt: success means the client returned a JSON
object whose repaired form passed the prediction schema. -/
theorem runAttempt_ok {x : Except String JValue} {p : AiPrediction}
    (h : runAttempt x = .ok p) :
    ∃ o, x = .ok (.obj o)
      ∧ aiPredictionParse (normalizeAiResponse o) = .ok p := by
  cases x with
  | error e => simp [runAttempt] at h
  | ok v =>
    cases v with
    | obj o => exact ⟨o, rfl, h⟩
    | str s => simp [runAttempt] at h
    | num q => simp [runAttempt] at h
    | nan => simp [runAttempt] at h
    | jbool b => simp [runAttempt] at h
    | jnull => simp [runAttempt] at h
    | userIdObj s => simp [runAttempt] at h

/-- A record whose payload fails the SQS schema is failed immediately:
no LLM call, no store write, store unchanged. -/
theorem process_validation_error
    {mkUser : String → Except String JValue}
    {client : ℕ → Except String JValue} {now : String} {store : List JObj}
    {mid : String} {j : JValue} {e : String}
    (h : validateSqsPayload j = .error e) :
    processSingleRecord mkUser client now store ⟨mid, .ok j⟩
      = ⟨⟨false, mid, some e⟩, store, 0, 0⟩ := by
  simp [processSingleRecord, h]

/-! ## The claims -/

/-- C4: if the document-store connectivity ping fails at batch start, the
handler returns every message identifier as failed, the store is
untouched, and zero LLM-client calls are made — no per-item work happens
for any message. -/
theorem C4_fail_fast_on_dead_store
    (mkUser : String → Except String JValue)
    (client : SqsRecord → ℕ → Except String JValue) (now : String)
    (store : List JObj) (records : List SqsRecord) :
    handler mkUser client now false store records
      = (records.map (fun r => r.messageId), store, 0) := rfl

/-- C2: with `maxRetries = 3`, the prediction client makes at most 3
sequential attempts; the first successful attempt's result is returned
with no further attempts (so two failures followed by a success yield the
attempt-3 result after exactly 3 calls); and when all 3 attempts fail it
fails with the `PredictionError` message carrying the last underlying
error, after exactly 3 attempts. -/
theorem C2_retry_bound (client : ℕ → Except String JValue) :
    (getAiPredictionsWithRetry client).2 ≤ 3
    ∧ (∀ i, i < 3 → (∀ j, j < i → isErr (runAttempt (client j)) = true) →
        ∀ p, runAttempt (client i) = .ok p →
          getAiPredictionsWithRetry client = (.ok (some p), i + 1))
    ∧ ((∀ j, j < 3 → isErr (runAttempt (client j)) = true) →
        ∀ e, runAttempt (client 2) = .error e →
          getAiPredictionsWithRetry client
            = (.error ("All Groq API attempts failed. Last error: " ++ e),
               3)) := by
  refine ⟨?_, ?_, ?_⟩
  · rcases h0 : runAttempt (client 0) with e0 | p0
    · rcases h1 : runAttempt (client 1) with e1 | p1
      · rcases h2 : runAttempt (client 2) with e2 | p2
        · rw [retry_err h0 h1 h2]
        · rw [retry_ok2 h0 h1 h2]
      · rw [retry_ok1 h0 h1]
        norm_num
    · rw [retry_ok0 h0]
      norm_num
  · intro i hi hprev p hp
    interval_cases i
    · exact retry_ok0 hp
    · obtain ⟨e0, he0⟩ := isErr_iff.mp (hprev 0 (by norm_num))
      exact retry_ok1 he0 hp
    · obtain ⟨e0, he0⟩ := isErr_iff.mp (hprev 0 (by norm_num))
      obtain ⟨e1, he1⟩ := isErr_iff.mp (hprev 1 (by norm_num))
      exact retry_ok2 he0 he1 hp
  · intro hall e he
    obtain ⟨e0, he0⟩ := isErr_iff.mp (hall 0 (by norm_num))
    obtain ⟨e1, he1⟩ := isErr_iff.mp (hall 1 (by norm_num))
    exact retry_err he0 he1 he

/-- Witness for C2: the flaky client fails attempts 1 and 2 and succeeds
on attempt 3; `predict` returns the attempt-3 result after exactly 3
calls. -/
theorem C2_retry_bound_witness :
    getAiPredictionsWithRetry flakyClient = (.ok (some goodPrediction), 3) :=
  (C2_retry_bound flakyClient).2.1 2 (by norm_num) (by decide)
    goodPrediction rfl

/-- C6: a message body missing `projectIdentifier`, or whose `rowIndex` is
not a positive integer, or whose `syncTimestamp` is not a valid datetime,
fails the Validator: the schema parse errors, the record is failed with
zero LLM calls, no store write, an unchanged store — it is not retried. -/
theorem C6_validator_rejects
    (mkUser : String → Except String JValue)
    (client : ℕ → Except String JValue) (now : String) (store : List JObj)
    (mid : String) (o : JObj)
    (hbad : getKey o "project_identifier" = none
      ∨ (∃ q : ℚ, getKey o "row_index" = some (.num q) ∧ ¬(q.den = 1 ∧ 0 < q))
      ∨ (∃ s : String, getKey o "sync_timestamp" = some (.str s)
          ∧ isIsoDatetime s = false)) :
    isErr (validateSqsPayload (.obj o)) = true
    ∧ (processSingleRecord mkUser client now store ⟨mid, .ok (.obj o)⟩).res.success
        = false
    ∧ (processSingleRecord mkUser client now store ⟨mid, .ok (.obj o)⟩).llmCalls = 0
    ∧ (processSingleRecord mkUser client now store ⟨mid, .ok (.obj o)⟩).storeWrites = 0
    ∧ (processSingleRecord mkUser client now store ⟨mid, .ok (.obj o)⟩).store
        = store := by
  have hverr : isErr (validateSqsPayload (.obj o)) = true := by
    cases hv : validateSqsPayload (.obj o) with
    | error e => simp [isErr]
    | ok payload =>
      exfalso
      obtain ⟨hu, hune, hri, hint, hpos, hpid, hts, hiso⟩ :=
        validateSqsPayload_ok hv
      rcases hbad with hb | ⟨q, hq, hnq⟩ | ⟨s, hs, hnd⟩
      · rw [hb] at hpid
        exact Option.noConfusion hpid
      · rw [hri] at hq
        injection hq with hq2
        injection hq2 with hq3
        exact hnq (hq3 ▸ ⟨hint, hpos⟩)
      · rw [hts] at hs
        injection hs with hs2
        injection hs2 with hs3
        rw [← hs3] at hnd
        rw [hiso] at hnd
        exact Bool.noConfusion hnd
  obtain ⟨e, he⟩ := isErr_iff.mp hverr
  rw [process_validation_error he]
  exact ⟨hverr, rfl, rfl, rfl, rfl⟩

/-- Witness for C6: a concrete record with no `project_identifier` is
rejected by the validator with no LLM call and no write. -/
theorem C6_validator_rejects_witness :
    isErr (validateSqsPayload (.obj noProjectBody)) = true
    ∧ (processSingleRecord mkUserObjectId aiClientGood nowTs []
        ⟨"m4", .ok (.obj noProjectBody)⟩).llmCalls = 0 :=
  have h := C6_validator_rejects mkUserObjectId aiClientGood nowTs [] "m4"
    noProjectBody (Or.inl rfl)
  ⟨h.1, h.2.2.1⟩

/-- C10: the deployed variant's schema additionally requires a non-empty
`userId`: a body lacking `userId` or carrying an empty `userId` fails
validation — and hence the record is reported failed — regardless of the
other fields. -/
theorem C10_userId_required
    (mkUser : String → Except String JValue)
    (client : ℕ → Except String JValue) (now : String) (store : List JObj)
    (mid : String) (o : JObj)
    (hno : getKey o "userId" = none ∨ getKey o "userId" = some (.str "")) :
    isErr (validateSqsPayload (.obj o)) = true
    ∧ (processSingleRecord mkUser client now store ⟨mid, .ok (.obj o)⟩).res.success
        = false
    ∧ (processSingleRecord mkUser client now store ⟨mid, .ok (.obj o)⟩).llmCalls = 0
    ∧ (processSingleRecord mkUser client now store ⟨mid, .ok (.obj o)⟩).storeWrites
        = 0 := by
  have hverr : isErr (validateSqsPayload (.obj o)) = true := by
    cases hv : validateSqsPayload (.obj o) with
    | error e => simp [isErr]
    | ok payload =>
      exfalso
      obtain ⟨hu, hune, _⟩ := validateSqsPayload_ok hv
      rcases hno with hb | hb
      · rw [hb] at hu
        exact Option.noConfusion hu
      · rw [hu] at hb
        injection hb with hb2
        injection hb2 with hb3
        rw [hb3] at hune
        exact Bool.noConfusion hune
  obtain ⟨e, he⟩ := isErr_iff.mp hverr
  rw [process_validation_error he]
  exact ⟨hverr, rfl, rfl, rfl⟩

/-- Witness for C10: a concrete body with all six spec-required fields
valid but no `userId` fails validation. -/
theorem C10_userId_required_witness :
    isErr (validateSqsPayload (.obj noUserIdBody)) = true
    ∧ (processSingleRecord mkUserObjectId aiClientGood nowTs []
        ⟨"m5", .ok (.obj noUserIdBody)⟩).res.success = false :=
  have h := C10_userId_required mkUserObjectId aiClientGood nowTs [] "m5"
    noUserIdBody (Or.inl rfl)
  ⟨h.1, h.2.1⟩

/-- C8: a store write happens for a message only after the whole chain
succeeded — body parsed, payload validated, a prediction obtained and
schema-validated, the user-id object built, and the assembled document
validated against the Mongo schema; on any earlier failure the write count
is zero and the store is unchanged, so no partial record is ever
persisted. -/
theorem C8_no_partial_persist
    (mkUser : String → Except String JValue)
    (client : ℕ → Except String JValue) (now : String) (store : List JObj)
    (record : SqsRecord) :
    ((processSingleRecord mkUser client now store record).storeWrites = 0
      ∨ (processSingleRecord mkUser client now store record).storeWrites = 1)
    ∧ ((processSingleRecord mkUser client now store record).storeWrites = 1 →
        ∃ j payload p uid, record.body = .ok j
          ∧ validateSqsPayload j = .ok payload
          ∧ (getAiPredictionsWithRetry client).1 = .ok (some p)
          ∧ mkUser payload.userId = .ok uid
          ∧ isErr (mongoDocParse (buildDocument uid payload p now)) = false)
    ∧ ((processSingleRecord mkUser client now store record).storeWrites = 0 →
        (processSingleRecord mkUser client now store record).store
          = store) := by
  rcases hb : record.body with e | j
  · simp [processSingleRecord, hb]
  · rcases hv : validateSqsPayload j with e | payload
    · simp [processSingleRecord, hb, hv]
    · rcases hpr : (getAiPredictionsWithRetry client).1 with e | op
      · simp [processSingleRecord, hb, hv, hpr]
      · cases op with
        | none => simp [processSingleRecord, hb, hv, hpr]
        | some p =>
          rcases hu : mkUser payload.userId with e | uid
          · simp [processSingleRecord, hb, hv, hpr, hu]
          · rcases hm : mongoDocParse (buildDocument uid payload p now)
              with e | vdoc
            · simp [processSingleRecord, hb, hv, hpr, hu, hm]
            · refine ⟨?_, ?_, ?_⟩
              · right
                simp [processSingleRecord, hb, hv, hpr, hu, hm]
              · intro _
                exact ⟨j, payload, p, uid, rfl, hv, rfl, hu, by rw [hm]; rfl⟩
              · intro h0
                exfalso
                have h1 : (processSingleRecord mkUser client now store
                    record).storeWrites = 1 := by
                  simp [processSingleRecord, hb, hv, hpr, hu, hm]
                rw [h0] at h1
                exact Nat.zero_ne_one h1

/-- Witness for C8: the invalid record `rec2` produces zero writes, so the
store is unchanged. -/
theorem C8_no_partial_persist_witness :
    (processSingleRecord mkUserObjectId aiClientGood nowTs [] rec2).store
      = [] :=
  (C8_no_partial_persist mkUserObjectId aiClientGood nowTs [] rec2).2.2 rfl

/-- C5: upserting the same key-consistent document twice (each key field
occurring in the document with the same value, against a store holding at
most one match for the key) succeeds, the second call is a no-op, and
exactly one stored document matches the key afterwards, carrying exactly
the document's field values. -/
theorem C5_store_idempotent {doc key : JObj} {store : List JObj}
    (hnd : (keysOf doc).Nodup)
    (hcons : ∀ kv ∈ key, getKey doc kv.1 = some kv.2)
    (hcount : countMatching key store ≤ 1) :
    (storeDocumentWithRetry doc key store).1 = true
    ∧ storeDocumentWithRetry doc key (storeDocumentWithRetry doc key store).2
        = storeDocumentWithRetry doc key store
    ∧ countMatching key (storeDocumentWithRetry doc key store).2 = 1
    ∧ ∀ d ∈ (storeDocumentWithRetry doc key store).2,
        matchesFilter d key = true →
        ∀ kv ∈ doc, getKey d kv.1 = some kv.2 := by
  obtain ⟨h1, h2, h3⟩ := upsert_idem_spec hnd hcons store hcount
  refine ⟨rfl, ?_, h2, h3⟩
  show (true, updateOneUpsert key doc (updateOneUpsert key doc store))
    = (true, updateOneUpsert key doc store)
  rw [h1]

/-- Witness for C5: storing `exDoc` twice under `exKey` on the empty store
leaves one matching document and the second call is a no-op. -/
theorem C5_store_idempotent_witness :
    countMatching exKey (storeDocumentWithRetry exDoc exKey []).2 = 1
    ∧ storeDocumentWithRetry exDoc exKey
        (storeDocumentWithRetry exDoc exKey []).2
      = storeDocumentWithRetry exDoc exKey [] :=
  have h := @C5_store_idempotent exDoc exKey []
    (by decide)
    (by
      intro kv hkv
      simp only [exKey, List.mem_cons, List.not_mem_nil, or_false] at hkv
      rcases hkv with rfl | rfl | rfl <;> rfl)
    (Nat.zero_le 1)
  ⟨h.2.2.1, h.2.1⟩

/-- C9 counterexample: the upsert uses `$set`, which merges rather than
replaces — a field `legacy` present on the prior matching document and
absent from both the new document and the key survives the write, contrary
to the claim that no values survive from the prior document. -/
theorem C9_counterexample :
    (storeDocumentWithRetry exDoc exKey [legacyDoc]).2
      = [applySet legacyDoc exDoc]
    ∧ getKey (applySet legacyDoc exDoc) "legacy" = some (.str "old")
    ∧ getKey exDoc "legacy" = none
    ∧ getKey exKey "legacy" = none :=
  ⟨rfl, rfl, rfl, rfl⟩

/-- C9 (amended): `updateOne` with `$set` and `upsert: true` updates the
first document matching the key by writing the document's fields over it —
fields of the prior document not named in the new document are retained —
and creates no duplicate; with no match it inserts one new document built
from the key's fields with the document's fields applied. -/
theorem C9_upsert_merges (key setDoc : JObj) :
    (∀ store : List JObj, (∀ d ∈ store, ¬ matchesFilter d key = true) →
        updateOneUpsert key setDoc store = store ++ [applySet key setDoc])
    ∧ (∀ pre (m : JObj) post, (∀ d ∈ pre, ¬ matchesFilter d key = true) →
        matchesFilter m key = true →
        updateOneUpsert key setDoc (pre ++ m :: post)
          = pre ++ applySet m setDoc :: post)
    ∧ ((keysOf setDoc).Nodup → ∀ (m : JObj) kv, kv ∈ setDoc →
        getKey (applySet m setDoc) kv.1 = some kv.2)
    ∧ (∀ (m : JObj) k, k ∉ keysOf setDoc →
        getKey (applySet m setDoc) k = getKey m k) :=
  ⟨fun _store h => upsert_no_match h,
   fun _pre _m post h hm => upsert_first_match h hm post,
   fun hnd m _kv hkv => applySet_getKey_of_nodup hnd hkv m,
   fun m _k hk => applySet_getKey_not_mem hk m⟩

/-- Witness for C9 (amended): on the store holding `legacyDoc`, the upsert
rewrites it in place by `$set` and retains the `legacy` field. -/
theorem C9_upsert_merges_witness :
    updateOneUpsert exKey exDoc [legacyDoc] = [applySet legacyDoc exDoc]
    ∧ getKey (applySet legacyDoc exDoc) "legacy" = getKey legacyDoc "legacy" :=
  have h := C9_upsert_merges exKey exDoc
  ⟨h.2.1 [] legacyDoc [] (by intro d hd; simp at hd) rfl,
   h.2.2.2 legacyDoc "legacy" (by decide)⟩

/-- C3 counterexample: the strip set differs per field — `Forecasted_Cost`
strips only `$` and `,`, so the string `"±$1,200"` in that field parses to
`NaN` (and then fails schema validation), not to the claimed 1200. -/
theorem C3_counterexample :
    getKey (normalizeAiResponse mixedCostResponse) "Forecasted_Cost"
      = some .nan
    ∧ JValue.nan ≠ JValue.num 1200
    ∧ isErr (aiPredictionParse (normalizeAiResponse mixedCostResponse))
        = true :=
  ⟨rfl, fun h => JValue.noConfusion h, rfl⟩

/-- C3 (amended): the `Burnout` → `Burnout_Risk` alias repair is as
claimed; the numeric coercion strips `$` and `,` for `Forecasted_Cost`,
`$`, `,` and `±` for `Forecasted_Deviation`, and only `%` for
`Burnout_Risk` (not every currency symbol for every field), then parses
with `parseFloat`; the documented examples hold on the fields whose strip
set covers them, and `Burnout: "55%"` normalizes to `Burnout_Risk: 55`
with no `Burnout` key remaining. -/
theorem C3_field_repair (o : JObj) :
    (∀ v, getKey o "Burnout" = some v → hasKey o "Burnout_Risk" = false →
        getKey (normalizeAiResponse o) "Burnout" = none
        ∧ getKey (fixBurnoutAlias o) "Burnout_Risk" = some v)
    ∧ (∀ s, getKey o "Forecasted_Cost" = some (.str s) →
        getKey (normalizeAiResponse o) "Forecasted_Cost"
          = some (parseFloatJS (stripChars ['$', ','] s)))
    ∧ (∀ s, getKey o "Forecasted_Deviation" = some (.str s) →
        getKey (normalizeAiResponse o) "Forecasted_Deviation"
          = some (parseFloatJS (stripChars ['$', ',', '±'] s)))
    ∧ (∀ s, getKey o "Burnout_Risk" = some (.str s) →
        getKey (normalizeAiResponse o) "Burnout_Risk"
          = some (parseFloatJS (stripChars ['%'] s)))
    ∧ parseFloatJS (stripChars ['$', ','] "$12,345") = .num 12345
    ∧ parseFloatJS (stripChars ['$', ',', '±'] "±$1,200") = .num 1200
    ∧ parseFloatJS (stripChars ['%'] "70%") = .num 70
    ∧ getKey (normalizeAiResponse aliasResponse) "Burnout_Risk"
        = some (.num 55)
    ∧ getKey (normalizeAiResponse aliasResponse) "Burnout" = none := by
  refine ⟨?_, ?_, ?_, ?_, ?_, ?_, ?_, ?_, ?_⟩
  · intro v hb hnr
    constructor
    · unfold normalizeAiResponse
      rw [getKey_coerce_other (by decide), getKey_coerce_other (by decide),
        getKey_coerce_other (by decide)]
      exact (fixBurnoutAlias_moves hb hnr).1
    · exact (fixBurnoutAlias_moves hb hnr).2
  · intro s hs
    unfold normalizeAiResponse
    rw [getKey_coerce_other (by decide), getKey_coerce_other (by decide)]
    exact getKey_coerce_self_str
      ((fixBurnoutAlias_getKey_other (by decide) (by decide) o).trans hs)
  · intro s hs
    unfold normalizeAiResponse
    rw [getKey_coerce_other (by decide)]
    refine getKey_coerce_self_str ?_
    rw [getKey_coerce_other (by decide)]
    exact (fixBurnoutAlias_getKey_other (by decide) (by decide) o).trans hs
  · intro s hs
    unfold normalizeAiResponse
    refine getKey_coerce_self_str ?_
    rw [getKey_coerce_other (by decide), getKey_coerce_other (by decide),
      fixBurnoutAlias_of_hasRisk (by rw [hasKey, hs]; rfl)]
    exact hs
  · simp [parseFloatJS, stripChars, digitsVal]
  · simp [parseFloatJS, stripChars, digitsVal]
  · simp [parseFloatJS, stripChars, digitsVal]
  · have hmv := @fixBurnoutAlias_moves aliasResponse
      (.str "55%") rfl rfl
    unfold normalizeAiResponse
    have h1 : getKey (coerceNumField "Forecasted_Deviation" ['$', ',', '±']
        (coerceNumField "Forecasted_Cost" ['$', ',']
          (fixBurnoutAlias aliasResponse))) "Burnout_Risk"
        = some (.str "55%") := by
      rw [getKey_coerce_other (by decide), getKey_coerce_other (by decide)]
      exact hmv.2
    rw [getKey_coerce_self_str h1]
    simp [parseFloatJS, stripChars, digitsVal]
  · have hmv := @fixBurnoutAlias_moves aliasResponse
      (.str "55%") rfl rfl
    unfold normalizeAiResponse
    rw [getKey_coerce_other (by decide), getKey_coerce_other (by decide),
      getKey_coerce_other (by decide)]
    exact hmv.1

/-- Witness for C3 (amended): the cost coercion applied to the concrete
response with the string-valued cost field. -/
theorem C3_field_repair_witness :
    getKey (normalizeAiResponse mixedCostResponse) "Forecasted_Cost"
      = some (parseFloatJS (stripChars ['$', ','] "±$1,200")) :=
  (C3_field_repair mixedCostResponse).2.1 "±$1,200" rfl

/-- C7 counterexample: the prediction schema checks only types — a reply
whose `Risk` and `Issues` lie outside the spec's closed sets and whose
`Burnout_Risk` is 150 is accepted and returned by the prediction
client. -/
theorem C7_counterexample :
    (getAiPredictionsWithRetry wildClient).1
      = .ok (some ⟨"Quantum Flu", "Nothing", 1, 2, 150⟩)
    ∧ (["ResourceConstraints", "TechDebt", "VendorDelay",
        "ScopeCreep"].contains "Quantum Flu") = false
    ∧ (["Overtime", "BudgetCut", "EscalationPending",
        "RequirementGap"].contains "Nothing") = false
    ∧ ¬((150 : ℚ) ≤ 100) :=
  ⟨rfl, rfl, rfl, by norm_num⟩

/-- C7 (amended): every prediction the client returns is sound against
the normalized response within 3 attempts: all five fields are present in
the repaired reply with exactly the returned values, `Risk` and `Issues`
as strings and the three numeric fields as (finite, non-`NaN`) numbers;
membership of the closed sets and the 0–100 burnout range are not
enforced. -/
theorem C7_prediction_typed {client : ℕ → Except String JValue}
    {p : AiPrediction} {n : ℕ}
    (h : getAiPredictionsWithRetry client = (.ok (some p), n)) :
    ∃ i o, i < 3 ∧ client i = .ok (.obj o)
      ∧ getKey (normalizeAiResponse o) "Risk" = some (.str p.Risk)
      ∧ getKey (normalizeAiResponse o) "Issues" = some (.str p.Issues)
      ∧ getKey (normalizeAiResponse o) "Forecasted_Cost"
          = some (.num p.Forecasted_Cost)
      ∧ getKey (normalizeAiResponse o) "Forecasted_Deviation"
          = some (.num p.Forecasted_Deviation)
      ∧ getKey (normalizeAiResponse o) "Burnout_Risk"
          = some (.num p.Burnout_Risk) := by
  rcases h0 : runAttempt (client 0) with e0 | p0
  · rcases h1 : runAttempt (client 1) with e1 | p1
    · rcases h2 : runAttempt (client 2) with e2 | p2
      · rw [retry_err h0 h1 h2] at h
        injection h with hfst
        exact Except.noConfusion hfst
      · rw [retry_ok2 h0 h1 h2] at h
        injection h with hfst
        injection hfst with hop
        injection hop with hp
        subst hp
        obtain ⟨o, hco, hparse⟩ := runAttempt_ok h2
        obtain ⟨hr, hi, hc, hd, hb⟩ := aiPredictionParse_ok hparse
        exact ⟨2, o, by norm_num, hco, hr, hi, hc, hd, hb⟩
    · rw [retry_ok1 h0 h1] at h
      injection h with hfst
      injection hfst with hop
      injection hop with hp
      subst hp
      obtain ⟨o, hco, hparse⟩ := runAttempt_ok h1
      obtain ⟨hr, hi, hc, hd, hb⟩ := aiPredictionParse_ok hparse
      exact ⟨1, o, by norm_num, hco, hr, hi, hc, hd, hb⟩
  · rw [retry_ok0 h0] at h
    injection h with hfst
    injection hfst with hop
    injection hop with hp
    subst hp
    obtain ⟨o, hco, hparse⟩ := runAttempt_ok h0
    obtain ⟨hr, hi, hc, hd, hb⟩ := aiPredictionParse_ok hparse
    exact ⟨0, o, by norm_num, hco, hr, hi, hc, hd, hb⟩

/-- Witness for C7 (amended): soundness instantiated at the always-good
client and its returned prediction. -/
theorem C7_prediction_typed_witness :
    ∃ i o, i < 3 ∧ aiClientGood i = .ok (.obj o)
      ∧ getKey (normalizeAiResponse o) "Risk"
          = some (.str goodPrediction.Risk)
      ∧ getKey (normalizeAiResponse o) "Issues"
          = some (.str goodPrediction.Issues)
      ∧ getKey (normalizeAiResponse o) "Forecasted_Cost"
          = some (.num goodPrediction.Forecasted_Cost)
      ∧ getKey (normalizeAiResponse o) "Forecasted_Deviation"
          = some (.num goodPrediction.Forecasted_Deviation)
      ∧ getKey (normalizeAiResponse o) "Burnout_Risk"
          = some (.num goodPrediction.Burnout_Risk) :=
  @C7_prediction_typed aiClientGood goodPrediction 1 rfl

/-- C1: evaluation of the three-message batch (message 2 invalid, an LLM
client that answers every request with a valid prediction).  Under the
source's literal semantics — `new onrejectionhandled(userId)` throws a
`ReferenceError` — all three messages are reported failed and nothing is
persisted, after 2 LLM calls.  With that expression repaired to the
evident ObjectId construction, the handler behaves as the claim states:
only message 2 is failed, messages 1 and 3 are persisted, per-message
failures never abort siblings, and the handler returns normally in both
scenarios. -/
theorem C1_batch_evaluation :
    handler mkUserThrows goodClient nowTs true [] [rec1, rec2, rec3]
      = (["m1", "m2", "m3"], [], 2)
    ∧ (handler mkUserObjectId goodClient nowTs true [] [rec1, rec2, rec3]).1
        = ["m2"]
    ∧ (handler mkUserObjectId goodClient nowTs true [] [rec1, rec2, rec3]).2.2
        = 2
    ∧ ((handler mkUserObjectId goodClient nowTs true []
          [rec1, rec2, rec3]).2.1).map
          (fun d => getKey d "project_identifier")
        = [some (.str "proj-1"), some (.str "proj-3")] :=
  ⟨rfl, rfl, rfl, rfl⟩

end Pipeline
